import Mathlib

/-!
Shallow embedding of the UZMANRAPOR API SQL gateway (src/UZMANRAPOR_API/main.py).
Query texts are modelled as lists of character codes (ASCII scope), so that
Python's case folding, whitespace stripping and word-boundary regex scans
become explicit arithmetic on codes.
-/

namespace Uzman

/-- Character codes of a string literal, the model of a Python str. -/
def chars (s : String) : List Nat := s.toList.map Char.toNat

/-- Python str.strip and regex whitespace class, ASCII scope:
space, tab, newline, carriage return, vertical tab, form feed. -/
def isSpaceCh (c : Nat) : Bool :=
  c == 32 || c == 9 || c == 10 || c == 13 || c == 11 || c == 12

/-- Regex word character (ASCII scope): letters, digits, underscore. -/
def isWordCh (c : Nat) : Bool :=
  (48 ≤ c && c ≤ 57) || (65 ≤ c && c ≤ 90) || (97 ≤ c && c ≤ 122) || c == 95

/-- Python str.lower on one character code (ASCII scope). -/
def lowerCh (c : Nat) : Nat := if 65 ≤ c && c ≤ 90 then c + 32 else c

/-- Python str.lower on a whole text. -/
def lowerStr (s : List Nat) : List Nat := s.map lowerCh

/-- Case-insensitive character comparison, as the regex IGNORECASE flag. -/
def lcEq (a b : Nat) : Bool := lowerCh a == lowerCh b

/-- Python str.strip: drop leading and trailing whitespace. -/
def pyStrip (s : List Nat) : List Nat :=
  (((s.dropWhile isSpaceCh).reverse.dropWhile isSpaceCh).reverse)

/-- First whitespace-delimited token, as q.split(None, 1)[0] on stripped q. -/
def headToken (q : List Nat) : List Nat := q.takeWhile (fun c => !isSpaceCh c)

/-- Case-insensitive literal-prefix test between a pattern and a text. -/
def startsWithCI : List Nat → List Nat → Bool
  | [], _ => true
  | _ :: _, [] => false
  | t :: ts, c :: cs => lcEq t c && startsWithCI ts cs

/-- A whole-word match of a token at the head of the text: the token is a
case-insensitive prefix and the character right after it (if any) is not a
word character, per the trailing word boundary of the FORBIDDEN regex. -/
def tokAt (tok s : List Nat) : Bool :=
  startsWithCI tok s &&
    match s.drop tok.length with
    | [] => true
    | c :: _ => !isWordCh c

/-- Scan for a whole-word occurrence of a token anywhere in the text.
The flag pw records whether the previous character was a word character,
which is exactly the leading word-boundary condition of the regex. -/
def scanTok (tok : List Nat) (pw : Bool) : List Nat → Bool
  | [] => false
  | c :: r => (!pw && tokAt tok (c :: r)) || scanTok tok (isWordCh c) r

/-- The FORBIDDEN keyword alternatives of main.py. -/
def FORBIDDEN : List (List Nat) :=
  [chars "create", chars "alter", chars "drop", chars "truncate",
   chars "grant", chars "revoke", chars "xp_", chars "sp_configure",
   chars "openrowset", chars "openquery"]

/-- FORBIDDEN.search on a text: some alternative occurs as a whole word. -/
def containsForbidden (s : List Nat) : Bool :=
  FORBIDDEN.any (fun tok => scanTok tok false s)

/-- The ALLOWED_OBJECTS set of main.py, in source order. -/
def ALLOWED_OBJECTS : List (List Nat) :=
  [chars "dbo.AppMeta", chars "dbo.Snapshots", chars "dbo.NoteRules",
   chars "dbo.AppUsers", chars "dbo.AppLookupValues", chars "dbo.UstaDefteri",
   chars "dbo.TipBuzulmeModel", chars "dbo.LoomCutMap", chars "dbo.TypeSelvedgeMap",
   chars "dbo.BlockedLooms", chars "dbo.DummyLooms", chars "dbo.ItemaAyar"]

/-- The ALLOWED_PROCS set of main.py. -/
def ALLOWED_PROCS : List (List Nat) :=
  [chars "dbo.sp_ItemaOtomatikAyar", chars "dbo.sp_ItemaTipOzelAyar"]

/-- The allowed head verbs of validate_query. -/
def ALLOWED_VERBS : List (List Nat) :=
  [chars "select", chars "insert", chars "update", chars "delete",
   chars "exec", chars "with"]

/-- Try the OBJ_REF pattern at the head of the text: the literal dbo
(any case), a dot, then a maximal nonempty run of word characters, whose
original-case codes are returned together with the rest of the text. -/
def objMatchAt : List Nat → Option (List Nat × List Nat)
  | d :: b :: o :: dot :: rest =>
    if lcEq 100 d && lcEq 98 b && lcEq 111 o && dot == 46 then
      let ident := rest.takeWhile isWordCh
      if ident.isEmpty then none else some (ident, rest.drop ident.length)
    else none
  | _ => none

/-- One pass of OBJ_REF.finditer with explicit fuel: collect the captured
identifiers of all non-overlapping dbo.word matches, scanning left to
right; pw carries the word-boundary state (the pattern starts with a word
character, so a match needs the previous character to be a non-word one),
and scanning resumes right after each match. Every step consumes at least
one character, so fuel equal to the text length never runs out. -/
def objRefScanF : Nat → Bool → List Nat → List (List Nat)
  | 0, _, _ => []
  | _, _, [] => []
  | fuel + 1, pw, c :: r =>
    if pw then objRefScanF fuel (isWordCh c) r
    else
      match objMatchAt (c :: r) with
      | some (ident, rest) => ident :: objRefScanF fuel true rest
      | none => objRefScanF fuel (isWordCh c) r

/-- OBJ_REF.finditer over a whole text. -/
def objRefScan (pw : Bool) (s : List Nat) : List (List Nat) :=
  objRefScanF s.length pw s

/-- The object references collected by validate_query: the literal
lower-case prefix dbo. glued to each captured identifier in original case. -/
def objRefs (q : List Nat) : List (List Nat) :=
  (objRefScan false q).map (fun ident => chars "dbo." ++ ident)

/-- Try the EXEC_REF pattern at the head of the text: exec (any case),
one or more whitespace characters, then dbo.word; the returned group is
the matched dbo.word text exactly as written, original case included. -/
def execMatchAt : List Nat → Option (List Nat)
  | e :: x :: e2 :: c :: rest =>
    if lcEq 101 e && lcEq 120 x && lcEq 101 e2 && lcEq 99 c then
      let sp := rest.takeWhile isSpaceCh
      if sp.isEmpty then none
      else
        match rest.drop sp.length with
        | d :: b :: o :: dot :: rest2 =>
          if lcEq 100 d && lcEq 98 b && lcEq 111 o && dot == 46 then
            let ident := rest2.takeWhile isWordCh
            if ident.isEmpty then none else some (d :: b :: o :: 46 :: ident)
          else none
        | _ => none
    else none
  | _ => none

/-- EXEC_REF.search: the first match anywhere in the text, with pw the
word-boundary state before the current position. -/
def execRefSearch (pw : Bool) : List Nat → Option (List Nat)
  | [] => none
  | c :: r =>
    match (if pw then none else execMatchAt (c :: r)) with
    | some g => some g
    | none => execRefSearch (isWordCh c) r

/-- The validation outcomes of validate_query, one per raise site. -/
inductive VErr where
  | emptyQuery
  | forbiddenKeyword
  | verbNotAllowed
  | objectNotAllowed (obj : List Nat)
  | execNoProcRef
  | procNotAllowed (proc : List Nat)
deriving DecidableEq

/-- HTTP status attached to each validation outcome. -/
def errStatus : VErr → Nat
  | .emptyQuery => 400
  | _ => 403

/-- Detail string attached to each validation outcome. -/
def errDetail : VErr → List Nat
  | .emptyQuery => chars "Empty query"
  | .forbiddenKeyword => chars "Forbidden SQL keyword"
  | .verbNotAllowed => chars "Only SELECT/INSERT/UPDATE/DELETE/EXEC are allowed"
  | .objectNotAllowed obj => chars "Object not allowed: " ++ obj
  | .execNoProcRef => chars "EXEC only allowed for dbo stored procedures"
  | .procNotAllowed proc => chars "Procedure not allowed: " ++ proc

/-- Membership of a collected reference in the union of the allow-lists,
the exact string comparison Python set membership performs. -/
def allowedRef (r : List Nat) : Bool :=
  ALLOWED_OBJECTS.contains r || ALLOWED_PROCS.contains r

/-- First collected reference outside the union of the allow-lists. -/
def firstDisallowed (objs : List (List Nat)) : Option (List Nat) :=
  objs.find? (fun o => !allowedRef o)

/-- The validate_query function of main.py: none means the query is
admitted, some e is the raised HTTPException e. -/
def validate_query (query : List Nat) : Option VErr :=
  let q := pyStrip query
  if q.isEmpty then some .emptyQuery
  else if containsForbidden q then some .forbiddenKeyword
  else
    let head := lowerStr (headToken q)
    if !ALLOWED_VERBS.contains head then some .verbNotAllowed
    else
      match firstDisallowed (objRefs q) with
      | some o => some (.objectNotAllowed o)
      | none =>
        if head == chars "exec" then
          match execRefSearch false q with
          | none => some .execNoProcRef
          | some proc =>
            if ALLOWED_PROCS.contains proc then none else some (.procNotAllowed proc)
        else none

/-! Parameter values, base64, the parameter adapter and the result encoder. -/

/-- A scalar parameter or result cell: Python str, int, bool, None, or a
binary payload (bytes, bytearray and memoryview collapse to one case). -/
inductive Value where
  | str (s : List Nat)
  | int (n : Int)
  | boolV (b : Bool)
  | null
  | bytes (bs : List Nat)
deriving DecidableEq

/-- Exact-prefix test between two code lists, as Python str equality scans. -/
def isPrefixL : List Nat → List Nat → Bool
  | [], _ => true
  | _ :: _, [] => false
  | a :: as', b :: bs => a == b && isPrefixL as' bs

/-- Python substring containment, the in operator on str. -/
def containsSub (pat : List Nat) : List Nat → Bool
  | [] => pat.isEmpty
  | c :: r => isPrefixL pat (c :: r) || containsSub pat r

/-- The standard base64 alphabet: sextet value to character code. -/
def b64char (v : Nat) : Nat :=
  if v < 26 then 65 + v
  else if v < 52 then 71 + v
  else if v < 62 then v - 4
  else if v == 62 then 43
  else 47

/-- Inverse alphabet lookup: character code to sextet value, none for a
character outside the alphabet (the padding sign 61 included). -/
def b64val (c : Nat) : Option Nat :=
  if 65 ≤ c && c ≤ 90 then some (c - 65)
  else if 97 ≤ c && c ≤ 122 then some (c - 71)
  else if 48 ≤ c && c ≤ 57 then some (c + 4)
  else if c == 43 then some 62
  else if c == 47 then some 63
  else none

/-- Python base64.b64encode over byte values, producing character codes. -/
def b64encode : List Nat → List Nat
  | [] => []
  | [b0] => [b64char (b0 / 4), b64char (b0 % 4 * 16), 61, 61]
  | [b0, b1] =>
    [b64char (b0 / 4), b64char (b0 % 4 * 16 + b1 / 16), b64char (b1 % 16 * 4), 61]
  | b0 :: b1 :: b2 :: rest =>
    b64char (b0 / 4) :: b64char (b0 % 4 * 16 + b1 / 16) ::
      b64char (b1 % 16 * 4 + b2 / 64) :: b64char (b2 % 64) :: b64encode rest

/-- The loop of binascii.a2b_base64 in its default non-strict mode: quad
holds the sextets of the current group (at most three), pads counts the
padding signs seen since the last data character. Characters outside the
alphabet are discarded; a padding sign with fewer than two accumulated
sextets is discarded without counting; padding that completes a group
ends decoding successfully, ignoring the rest of the input; a leftover
group at the end of input is an error. -/
def b64loop (quad : List Nat) (pads : Nat) : List Nat → Option (List Nat)
  | [] => if quad.isEmpty then some [] else none
  | c :: rest =>
    match b64val c with
    | some v =>
      match quad with
      | [v0, v1, v2] =>
        (b64loop [] 0 rest).map
          (fun tl => (v0 * 4 + v1 / 16) :: (v1 % 16 * 16 + v2 / 4) :: (v2 % 4 * 64 + v) :: tl)
      | _ => b64loop (quad ++ [v]) 0 rest
    | none =>
      if c == 61 then
        match quad with
        | [v0, v1] =>
          if pads + 1 ≥ 2 then some [v0 * 4 + v1 / 16]
          else b64loop quad (pads + 1) rest
        | [v0, v1, v2] => some [v0 * 4 + v1 / 16, v1 % 16 * 16 + v2 / 4]
        | _ => b64loop quad pads rest
      else b64loop quad pads rest

/-- Python base64.b64decode on a str argument: encoding to ascii fails on
any character code of 128 or more, then the non-strict binascii loop
runs; none models a raised exception. -/
def b64decodePy (s : List Nat) : Option (List Nat) :=
  if s.all (fun c => c < 128) then b64loop [] 0 s else none

/-- One iteration of the adapt_params loop at index i: replace a str
element whose base64 decoding succeeds by the decoded bytes, leaving the
list unchanged on a decode failure or a non-str element. -/
def adaptStep (out : List Value) (i : Nat) : List Value :=
  match out[i]? with
  | some (Value.str s) =>
    match b64decodePy s with
    | some bs => out.set i (Value.bytes bs)
    | none => out
  | _ => out

/-- The adapt_params function of main.py: when the lower-cased query
contains the literal insert into dbo.noterules and the parameter list is
non-empty, walk the copied list by index applying the per-index step;
all other queries pass their parameters through unchanged. -/
def adapt_params (query : List Nat) (params : List Value) : List Value :=
  let q := lowerStr query
  if containsSub (chars "insert into dbo.noterules") q && !params.isEmpty then
    (List.range params.length).foldl adaptStep params
  else params

/-- The per-parameter transform described by the specification of the
adapter: decode a str parameter from base64 when possible, keep it
unchanged on decode failure, and keep non-str parameters unchanged. -/
def specAdaptParam : Value → Value
  | .str s =>
    match b64decodePy s with
    | some bs => .bytes bs
    | none => .str s
  | p => p

/-- The encode_value function of main.py: binary payloads become their
base64 text, every other value passes through unchanged. -/
def encode_value : Value → Value
  | .bytes bs => .str (b64encode bs)
  | v => v

/-! The HTTP handler pipeline of the sql endpoint. -/

/-- The require_token guard of main.py: with a configured non-empty
expected token, the caller header must be present, truthy and equal to
it; with no configured token the guard always passes. -/
def require_token (expected : List Nat) (xToken : Option (List Nat)) : Bool :=
  if expected.isEmpty then true
  else
    match xToken with
    | none => false
    | some t => !t.isEmpty && t == expected

/-- The cursor state the pyodbc driver reports after execute: the column
description (empty list models a None description), the fetched rows, and
the rowcount (none models a missing count). -/
structure Cursor where
  description : List (List Nat)
  rows : List (List Value)
  rowcount : Option Int

/-- One request's worth of driver behavior: the outcome of connect, of
execute on the validated query and adapted parameters, and of commit;
an error value carries the driver message of the raised exception. -/
structure Driver where
  connect : Except (List Nat) Unit
  execute : List Nat → List Value → Except (List Nat) Cursor
  commit : Except (List Nat) Unit

/-- A successful response body of the sql endpoint: the row-returning
form carries columns, encoded rows and rowcount; the mutation form
carries the literal empty columns and rows lists and affected_rows. -/
inductive HResp where
  | rowsResult (columns : List (List Nat)) (rows : List (List Value)) (rowcount : Nat)
  | mutationResult (columns : List (List Nat)) (rows : List (List Value)) (affected : Int)
deriving DecidableEq

/-- Observable outcome of one request: the HTTP result (error status and
detail, or a success body), whether a connection was acquired, whether it
was closed, and whether a commit was attempted. -/
structure RunOut where
  result : Except (Nat × List Nat) HResp
  acquired : Bool
  closed : Bool
  commitAttempted : Bool

/-- The try block of the sql handler: connect, execute, then either fetch
and encode rows (non-empty description) or commit and report the row
count, with any driver failure surfaced as a 500; the Bool components
record connection acquisition and commit attempts. -/
def sqlTryBody (d : Driver) (query : List Nat) (ps : List Value) :
    Except (Nat × List Nat) HResp × Bool × Bool :=
  match d.connect with
  | .error e => (.error (500, e), false, false)
  | .ok _ =>
    match d.execute query ps with
    | .error e => (.error (500, e), true, false)
    | .ok cur =>
      if !cur.description.isEmpty then
        let dataRows := cur.rows.map (fun row => row.map encode_value)
        (.ok (.rowsResult cur.description dataRows dataRows.length), true, false)
      else
        match d.commit with
        | .error e => (.error (500, e), true, true)
        | .ok _ =>
          let rc : Int :=
            match cur.rowcount with
            | some n => n
            | none => -1
          (.ok (.mutationResult [] [] rc), true, true)

/-- The sql handler of main.py: token guard, then validate_query, then
parameter adaptation and the executor try block; the finally clause
closes the connection whenever one was acquired, swallowing close
failures, and the unbound name error of a failed connect. -/
def sql (expected : List Nat) (xToken : Option (List Nat))
    (query : List Nat) (params : List Value) (d : Driver) : RunOut :=
  if !require_token expected xToken then
    ⟨.error (401, chars "Unauthorized"), false, false, false⟩
  else
    match validate_query query with
    | some e => ⟨.error (errStatus e, errDetail e), false, false, false⟩
    | none =>
      let ps := adapt_params query params
      let (res, acq, cmt) := sqlTryBody d query ps
      ⟨res, acq, acq, cmt⟩

/-- A fixed driver instance used by concrete request evaluations. -/
def trivialDriver : Driver :=
  ⟨.ok (), fun _ _ => .ok ⟨[], [], none⟩, .ok ()⟩

/-- A fixed driver instance reporting a row-returning cursor. -/
def rowsDriver : Driver :=
  ⟨.ok (), fun _ _ =>
    .ok ⟨[chars "TypeCode"], [[Value.int 3], [Value.bytes [104, 105]]], none⟩, .ok ()⟩

/-! Definitions written from the specification's words, for comparison
with the source-derived ones above. -/

/-- Try the specification's generic qualified-reference pattern at the
head of the text: a nonempty word run, a dot, a nonempty word run; the
collected name is the schema qualifier lower-cased (the spec scans it
case-insensitively) glued to the identifier as written. -/
def specQualMatchAt (s : List Nat) : Option (List Nat × List Nat) :=
  let w1 := s.takeWhile isWordCh
  if w1.isEmpty then none
  else
    match s.drop w1.length with
    | dot :: rest =>
      if dot == 46 then
        let w2 := rest.takeWhile isWordCh
        if w2.isEmpty then none
        else some (lowerStr w1 ++ 46 :: w2, rest.drop w2.length)
      else none
    | [] => none

/-- The specification's scan for every schema-qualified reference of the
shape schema.identifier anywhere in the text, non-overlapping, with the
word-boundary state pw, fuelled by the text length. -/
def specQualRefsF : Nat → Bool → List Nat → List (List Nat)
  | 0, _, _ => []
  | _, _, [] => []
  | fuel + 1, pw, c :: r =>
    if pw then specQualRefsF fuel (isWordCh c) r
    else
      match specQualMatchAt (c :: r) with
      | some (ref, rest) => ref :: specQualRefsF fuel true rest
      | none => specQualRefsF fuel (isWordCh c) r

/-- All schema-qualified references of a text, per the specification. -/
def specQualRefs (s : List Nat) : List (List Nat) :=
  specQualRefsF s.length false s

/-- The specification's procedure reference immediately following the
head EXEC verb: the EXEC_REF pattern anchored at the very start of the
trimmed query text. -/
def specHeadExecTarget (q : List Nat) : Option (List Nat) :=
  execMatchAt q

/-! Lemmas: stripping surrounding whitespace does not change whether the
forbidden-keyword scan fires, because every forbidden token consists of
word characters only. -/

lemma word_not_space {c : Nat} (h : isWordCh c = true) : isSpaceCh c = false := by
  simp only [isWordCh, isSpaceCh] at *
  simp at h ⊢
  omega

lemma space_not_word {c : Nat} (h : isSpaceCh c = true) : isWordCh c = false := by
  simp only [isWordCh, isSpaceCh] at *
  simp at h ⊢
  omega

lemma lcEq_word_space {a b : Nat} (ha : isWordCh a = true) (hb : isSpaceCh b = true) :
    lcEq a b = false := by
  simp only [isWordCh, isSpaceCh, lcEq, lowerCh] at *
  simp at ha hb ⊢
  split_ifs <;> omega

lemma tokAt_space_head {tok : List Nat} (hne : tok ≠ []) (hw : tok.all isWordCh = true)
    {c : Nat} (hc : isSpaceCh c = true) (r : List Nat) : tokAt tok (c :: r) = false := by
  cases tok with
  | nil => exact absurd rfl hne
  | cons t ts =>
    have ht : isWordCh t = true := by
      simp [List.all_cons] at hw
      exact hw.1
    simp [tokAt, startsWithCI, lcEq_word_space ht hc]

lemma scanTok_space_head {tok : List Nat} (hne : tok ≠ []) (hw : tok.all isWordCh = true)
    {c : Nat} (hc : isSpaceCh c = true) (pw : Bool) (r : List Nat) :
    scanTok tok pw (c :: r) = scanTok tok false r := by
  simp [scanTok, tokAt_space_head hne hw hc, space_not_word hc]

lemma scanTok_dropWhile {tok : List Nat} (hne : tok ≠ []) (hw : tok.all isWordCh = true)
    (q : List Nat) : scanTok tok false (q.dropWhile isSpaceCh) = scanTok tok false q := by
  induction q with
  | nil => rfl
  | cons c r ih =>
    by_cases hc : isSpaceCh c = true
    · rw [List.dropWhile_cons_of_pos hc, ih, scanTok_space_head hne hw hc]
    · simp at hc
      rw [List.dropWhile_cons_of_neg (by simp [hc])]

lemma scanTok_all_space {tok : List Nat} (hne : tok ≠ []) (hw : tok.all isWordCh = true)
    {v : List Nat} (hv : v.all isSpaceCh = true) (pw : Bool) : scanTok tok pw v = false := by
  induction v generalizing pw with
  | nil => rfl
  | cons c r ih =>
    rw [List.all_cons, Bool.and_eq_true] at hv
    simp [scanTok, tokAt_space_head hne hw hv.1, ih hv.2]

lemma startsWithCI_length_le {tok s : List Nat} (h : startsWithCI tok s = true) :
    tok.length ≤ s.length := by
  induction tok generalizing s with
  | nil => simp
  | cons t ts ih =>
    cases s with
    | nil => simp [startsWithCI] at h
    | cons c cs =>
      simp [startsWithCI] at h
      have := ih h.2
      simp
      omega

lemma startsWithCI_append_space {tok : List Nat} (hw : tok.all isWordCh = true)
    {v : List Nat} (hv : v.all isSpaceCh = true) (w : List Nat) :
    startsWithCI tok (w ++ v) = startsWithCI tok w := by
  induction tok generalizing w with
  | nil => rfl
  | cons t ts ih =>
    rw [List.all_cons, Bool.and_eq_true] at hw
    cases w with
    | nil =>
      simp only [List.nil_append]
      cases v with
      | nil => rfl
      | cons s v' =>
        rw [List.all_cons, Bool.and_eq_true] at hv
        simp [startsWithCI, lcEq_word_space hw.1 hv.1]
    | cons c cs =>
      show (lcEq t c && startsWithCI ts (cs ++ v)) = (lcEq t c && startsWithCI ts cs)
      rw [ih hw.2 cs]

lemma tokAt_append_space {tok : List Nat} (hw : tok.all isWordCh = true)
    {v : List Nat} (hv : v.all isSpaceCh = true) (w : List Nat) :
    tokAt tok (w ++ v) = tokAt tok w := by
  unfold tokAt
  rw [startsWithCI_append_space hw hv]
  cases hst : startsWithCI tok w with
  | false => simp
  | true =>
    have hlen := startsWithCI_length_le hst
    rw [List.drop_append_of_le_length hlen]
    cases hdw : w.drop tok.length with
    | nil =>
      simp only [List.nil_append]
      cases v with
      | nil => rfl
      | cons s v' =>
        rw [List.all_cons, Bool.and_eq_true] at hv
        simp [space_not_word hv.1]
    | cons d ds => simp

lemma scanTok_append_space {tok : List Nat} (hne : tok ≠ []) (hw : tok.all isWordCh = true)
    {v : List Nat} (hv : v.all isSpaceCh = true) (w : List Nat) (pw : Bool) :
    scanTok tok pw (w ++ v) = scanTok tok pw w := by
  induction w generalizing pw with
  | nil =>
    simp only [List.nil_append]
    rw [scanTok_all_space hne hw hv pw]
    rfl
  | cons c w' ih =>
    show ((!pw && tokAt tok (c :: (w' ++ v))) || scanTok tok (isWordCh c) (w' ++ v))
        = ((!pw && tokAt tok (c :: w')) || scanTok tok (isWordCh c) w')
    rw [ih, ← List.cons_append, tokAt_append_space hw hv]

lemma strip_decomp (q : List Nat) :
    ∃ v, v.all isSpaceCh = true ∧ q.dropWhile isSpaceCh = pyStrip q ++ v := by
  refine ⟨((q.dropWhile isSpaceCh).reverse.takeWhile isSpaceCh).reverse, ?_, ?_⟩
  · rw [List.all_eq_true]
    intro c hc
    rw [List.mem_reverse] at hc
    exact List.mem_takeWhile_imp hc
  · unfold pyStrip
    conv_lhs => rw [← List.reverse_reverse (q.dropWhile isSpaceCh)]
    rw [← List.reverse_append]
    congr 1
    conv_lhs => rw [← List.takeWhile_append_dropWhile (p := isSpaceCh)
      (l := (q.dropWhile isSpaceCh).reverse)]

lemma scanTok_strip {tok : List Nat} (hne : tok ≠ []) (hw : tok.all isWordCh = true)
    (q : List Nat) : scanTok tok false (pyStrip q) = scanTok tok false q := by
  obtain ⟨v, hv, hdec⟩ := strip_decomp q
  rw [← scanTok_dropWhile hne hw q, hdec, scanTok_append_space hne hw hv]

lemma containsForbidden_strip (q : List Nat) :
    containsForbidden (pyStrip q) = containsForbidden q := by
  simp only [containsForbidden, FORBIDDEN, List.any_cons, List.any_nil]
  rw [scanTok_strip (by decide) (by decide) q, scanTok_strip (by decide) (by decide) q,
    scanTok_strip (by decide) (by decide) q, scanTok_strip (by decide) (by decide) q,
    scanTok_strip (by decide) (by decide) q, scanTok_strip (by decide) (by decide) q,
    scanTok_strip (by decide) (by decide) q, scanTok_strip (by decide) (by decide) q,
    scanTok_strip (by decide) (by decide) q, scanTok_strip (by decide) (by decide) q]

/-! Lemmas: unfolding validate_query along each path of its control flow. -/

lemma validate_query_forbidden (q : List Nat)
    (hforb : containsForbidden (pyStrip q) = true) :
    validate_query q = some VErr.forbiddenKeyword := by
  have hne : (pyStrip q).isEmpty = false := by
    cases he : pyStrip q with
    | nil => rw [he] at hforb; exact absurd hforb (by decide)
    | cons a l => rfl
  unfold validate_query
  simp [hne, hforb]

lemma validate_query_verb_reject (q : List Nat)
    (hne : (pyStrip q).isEmpty = false)
    (hforb : containsForbidden (pyStrip q) = false)
    (hverb : ALLOWED_VERBS.contains (lowerStr (headToken (pyStrip q))) = false) :
    validate_query q = some VErr.verbNotAllowed := by
  unfold validate_query
  simp at hverb
  simp [hne, hforb, hverb]

lemma validate_query_object_reject (q : List Nat)
    (hne : (pyStrip q).isEmpty = false)
    (hforb : containsForbidden (pyStrip q) = false)
    (hverb : ALLOWED_VERBS.contains (lowerStr (headToken (pyStrip q))) = true)
    (o : List Nat) (hfind : firstDisallowed (objRefs (pyStrip q)) = some o) :
    validate_query q = some (VErr.objectNotAllowed o) := by
  unfold validate_query
  simp at hverb
  simp [hne, hforb, hverb, hfind]

lemma validate_query_exec_path (q : List Nat)
    (hne : (pyStrip q).isEmpty = false)
    (hforb : containsForbidden (pyStrip q) = false)
    (hverb : ALLOWED_VERBS.contains (lowerStr (headToken (pyStrip q))) = true)
    (hobj : firstDisallowed (objRefs (pyStrip q)) = none) :
    validate_query q =
      (if lowerStr (headToken (pyStrip q)) == chars "exec" then
        match execRefSearch false (pyStrip q) with
        | none => some VErr.execNoProcRef
        | some p =>
          if ALLOWED_PROCS.contains p then none else some (VErr.procNotAllowed p)
      else none) := by
  unfold validate_query
  simp at hverb
  simp [hne, hforb, hverb, hobj]

lemma validate_query_not_verb_reject (q : List Nat)
    (hne : (pyStrip q).isEmpty = false)
    (hforb : containsForbidden (pyStrip q) = false)
    (hverb : ALLOWED_VERBS.contains (lowerStr (headToken (pyStrip q))) = true) :
    validate_query q ≠ some VErr.verbNotAllowed := by
  cases hobj : firstDisallowed (objRefs (pyStrip q)) with
  | some o => rw [validate_query_object_reject q hne hforb hverb o hobj]; simp
  | none =>
    rw [validate_query_exec_path q hne hforb hverb hobj]
    split
    · cases hex : execRefSearch false (pyStrip q) with
      | none => simp
      | some p =>
        simp only
        split <;> simp
    · simp

lemma isEmpty_false_of_ne_nil {α : Type} {l : List α} (h : l ≠ []) : l.isEmpty = false := by
  cases l with
  | nil => exact absurd rfl h
  | cons a t => rfl

/-- C1: any query containing a forbidden keyword token as a whole word,
case-insensitively, anywhere in its text is rejected with the 403
Forbidden SQL keyword error, before the verb and allow-list checks even
run. -/
theorem c1_forbidden_keyword_rejected (q : List Nat)
    (h : containsForbidden q = true) :
    validate_query q = some VErr.forbiddenKeyword ∧
    errStatus VErr.forbiddenKeyword = 403 ∧
    errDetail VErr.forbiddenKeyword = chars "Forbidden SQL keyword" := by
  have hs : containsForbidden (pyStrip q) = true := by
    rw [containsForbidden_strip]; exact h
  exact ⟨validate_query_forbidden q hs, rfl, rfl⟩

theorem c1_forbidden_keyword_rejected_witness :
    validate_query (chars "select 1 ; drop table dbo.Snapshots") = some VErr.forbiddenKeyword ∧
    errStatus VErr.forbiddenKeyword = 403 ∧
    errDetail VErr.forbiddenKeyword = chars "Forbidden SQL keyword" :=
  c1_forbidden_keyword_rejected (chars "select 1 ; drop table dbo.Snapshots") (by decide)

/-- C4: with a non-empty trimmed text free of forbidden keywords, a head
verb outside the allowed set forces the 403 verb rejection, and a head
verb inside the set never produces that rejection. -/
theorem c4_head_verb_gate (q : List Nat)
    (hne : pyStrip q ≠ [])
    (hforb : containsForbidden q = false) :
    (ALLOWED_VERBS.contains (lowerStr (headToken (pyStrip q))) = false →
       validate_query q = some VErr.verbNotAllowed ∧
       errStatus VErr.verbNotAllowed = 403) ∧
    (ALLOWED_VERBS.contains (lowerStr (headToken (pyStrip q))) = true →
       validate_query q ≠ some VErr.verbNotAllowed) := by
  have hne' := isEmpty_false_of_ne_nil hne
  have hforb' : containsForbidden (pyStrip q) = false := by
    rw [containsForbidden_strip]; exact hforb
  exact ⟨fun hverb => ⟨validate_query_verb_reject q hne' hforb' hverb, rfl⟩,
    fun hverb => validate_query_not_verb_reject q hne' hforb' hverb⟩

theorem c4_head_verb_gate_witness :
    validate_query (chars "pragma dbo.AppMeta") = some VErr.verbNotAllowed ∧
    validate_query (chars "select 1") ≠ some VErr.verbNotAllowed :=
  ⟨((c4_head_verb_gate (chars "pragma dbo.AppMeta") (by decide) (by decide)).1 (by decide)).1,
   (c4_head_verb_gate (chars "select 1") (by decide) (by decide)).2 (by decide)⟩

lemma exists_object_reject (q : List Nat)
    (hne : (pyStrip q).isEmpty = false)
    (hforb : containsForbidden (pyStrip q) = false)
    (hverb : ALLOWED_VERBS.contains (lowerStr (headToken (pyStrip q))) = true)
    (r : List Nat) (hr : r ∈ objRefs (pyStrip q)) (hmem : allowedRef r = false) :
    ∃ o, o ∈ objRefs (pyStrip q) ∧ allowedRef o = false ∧
      validate_query q = some (VErr.objectNotAllowed o) := by
  cases hfd : firstDisallowed (objRefs (pyStrip q)) with
  | none =>
    unfold firstDisallowed at hfd
    rw [List.find?_eq_none] at hfd
    have := hfd r hr
    simp [hmem] at this
  | some o =>
    have homem : o ∈ objRefs (pyStrip q) := by
      unfold firstDisallowed at hfd
      exact List.mem_of_find?_eq_some hfd
    have hobad : allowedRef o = false := by
      unfold firstDisallowed at hfd
      have := List.find?_some hfd
      simpa using this
    exact ⟨o, homem, hobad, validate_query_object_reject q hne hforb hverb o hfd⟩

/-- C2 counterexample: the query select * from sys.objects references the
schema-qualified name sys.objects, which is outside both allow-lists, yet
validate_query admits it, because the source only scans dbo-qualified
references. -/
theorem c2_any_schema_counterexample :
    (specQualRefs (chars "select * from sys.objects")).contains (chars "sys.objects") = true ∧
    allowedRef (chars "sys.objects") = false ∧
    pyStrip (chars "select * from sys.objects") ≠ [] ∧
    containsForbidden (chars "select * from sys.objects") = false ∧
    ALLOWED_VERBS.contains
      (lowerStr (headToken (pyStrip (chars "select * from sys.objects")))) = true ∧
    validate_query (chars "select * from sys.objects") = none := by decide

/-- C2 amended: restricted to dbo-qualified references, the claim holds:
a query on the happy path up to the object check whose collected dbo
references include one outside the union of the allow-lists is rejected
with 403 and a detail naming such a reference. -/
theorem c2_object_allowlist_rejection (q : List Nat)
    (hne : pyStrip q ≠ [])
    (hforb : containsForbidden q = false)
    (hverb : ALLOWED_VERBS.contains (lowerStr (headToken (pyStrip q))) = true)
    (hbad : (objRefs (pyStrip q)).any (fun r => !allowedRef r) = true) :
    ∃ r, r ∈ objRefs (pyStrip q) ∧ allowedRef r = false ∧
      validate_query q = some (VErr.objectNotAllowed r) ∧
      errStatus (VErr.objectNotAllowed r) = 403 ∧
      errDetail (VErr.objectNotAllowed r) = chars "Object not allowed: " ++ r := by
  have hne' := isEmpty_false_of_ne_nil hne
  have hforb' : containsForbidden (pyStrip q) = false := by
    rw [containsForbidden_strip]; exact hforb
  rw [List.any_eq_true] at hbad
  obtain ⟨r0, hr0mem, hr0bad⟩ := hbad
  have hr0bad' : allowedRef r0 = false := by simpa using hr0bad
  obtain ⟨o, homem, hobad, hval⟩ :=
    exists_object_reject q hne' hforb' hverb r0 hr0mem hr0bad'
  exact ⟨o, homem, hobad, hval, rfl, rfl⟩

theorem c2_object_allowlist_rejection_witness :
    ∃ r, r ∈ objRefs (pyStrip (chars "select x from dbo.Secret where dbo.AppMeta.k = 1")) ∧
      allowedRef r = false ∧
      validate_query (chars "select x from dbo.Secret where dbo.AppMeta.k = 1")
        = some (VErr.objectNotAllowed r) ∧
      errStatus (VErr.objectNotAllowed r) = 403 ∧
      errDetail (VErr.objectNotAllowed r) = chars "Object not allowed: " ++ r :=
  c2_object_allowlist_rejection (chars "select x from dbo.Secret where dbo.AppMeta.k = 1")
    (by decide) (by decide) (by decide) (by decide)

/-- C3 counterexample: a query whose head verb is exec, with no procedure
reference immediately after that head verb, passes validate_query anyway,
because EXEC_REF.search matches an exec group anywhere in the text. -/
theorem c3_head_exec_counterexample :
    lowerStr (headToken (pyStrip (chars "exec x exec dbo.sp_ItemaOtomatikAyar")))
      = chars "exec" ∧
    containsForbidden (chars "exec x exec dbo.sp_ItemaOtomatikAyar") = false ∧
    (objRefs (pyStrip (chars "exec x exec dbo.sp_ItemaOtomatikAyar"))).all allowedRef = true ∧
    specHeadExecTarget (pyStrip (chars "exec x exec dbo.sp_ItemaOtomatikAyar")) = none ∧
    validate_query (chars "exec x exec dbo.sp_ItemaOtomatikAyar") = none := by decide

/-- C3 amended: for a head-verb exec query that has passed the earlier
checks, admission is decided by the first match of the exec dbo.name
pattern anywhere in the text: no match rejects with 403, a match whose
group, exactly as written, is outside AllowedProcedureSet rejects with
403 naming it, and a match whose group is in the set is admitted; in
particular an EXEC target present only in AllowedObjectSet is rejected. -/
theorem c3_exec_proc_gate (q : List Nat)
    (hne : pyStrip q ≠ [])
    (hforb : containsForbidden q = false)
    (hhead : lowerStr (headToken (pyStrip q)) = chars "exec")
    (hobj : firstDisallowed (objRefs (pyStrip q)) = none) :
    (execRefSearch false (pyStrip q) = none →
       validate_query q = some VErr.execNoProcRef ∧
       errStatus VErr.execNoProcRef = 403) ∧
    (∀ p, execRefSearch false (pyStrip q) = some p →
       (ALLOWED_PROCS.contains p = false →
          validate_query q = some (VErr.procNotAllowed p) ∧
          errStatus (VErr.procNotAllowed p) = 403 ∧
          errDetail (VErr.procNotAllowed p) = chars "Procedure not allowed: " ++ p) ∧
       (ALLOWED_PROCS.contains p = true → validate_query q = none)) := by
  have hne' := isEmpty_false_of_ne_nil hne
  have hforb' : containsForbidden (pyStrip q) = false := by
    rw [containsForbidden_strip]; exact hforb
  have hverb : ALLOWED_VERBS.contains (lowerStr (headToken (pyStrip q))) = true := by
    rw [hhead]; decide
  have hval := validate_query_exec_path q hne' hforb' hverb hobj
  rw [hhead] at hval
  simp only [beq_self_eq_true, if_true] at hval
  constructor
  · intro hex
    rw [hex] at hval
    exact ⟨hval, rfl⟩
  · intro p hex
    rw [hex] at hval
    dsimp only at hval
    constructor
    · intro hmem
      rw [hmem] at hval
      simp at hval
      exact ⟨hval, rfl, rfl⟩
    · intro hmem
      rw [hmem] at hval
      simpa using hval

theorem c3_exec_proc_gate_witness :
    (validate_query (chars "exec dbo.AppMeta")
        = some (VErr.procNotAllowed (chars "dbo.AppMeta")) ∧
      errStatus (VErr.procNotAllowed (chars "dbo.AppMeta")) = 403 ∧
      errDetail (VErr.procNotAllowed (chars "dbo.AppMeta"))
        = chars "Procedure not allowed: " ++ chars "dbo.AppMeta") ∧
    validate_query (chars "exec @p") = some VErr.execNoProcRef ∧
    validate_query (chars "exec dbo.sp_ItemaTipOzelAyar ?") = none :=
  ⟨((c3_exec_proc_gate (chars "exec dbo.AppMeta") (by decide) (by decide) (by decide)
        (by decide)).2 (chars "dbo.AppMeta") (by decide)).1 (by decide),
   ((c3_exec_proc_gate (chars "exec @p") (by decide) (by decide) (by decide)
        (by decide)).1 (by decide)).1,
   ((c3_exec_proc_gate (chars "exec dbo.sp_ItemaTipOzelAyar ?") (by decide) (by decide)
        (by decide) (by decide)).2 (chars "dbo.sp_ItemaTipOzelAyar") (by decide)).2 (by decide)⟩

/-- C10: allow-list membership is a case-sensitive comparison of the
lower-case dbo. prefix glued to the identifier as written, so a reference
that differs from an allow-listed name only in identifier casing is
rejected with Object not allowed, the canonical casing is admitted, and
the procedure gate is likewise case-sensitive on the matched exec group,
producing Procedure not allowed for a differently cased target. -/
theorem c10_case_sensitive_allowlist (q r : List Nat)
    (hne : pyStrip q ≠ [])
    (hforb : containsForbidden q = false)
    (hverb : ALLOWED_VERBS.contains (lowerStr (headToken (pyStrip q))) = true)
    (hr : r ∈ objRefs (pyStrip q))
    (_hcase : (ALLOWED_OBJECTS ++ ALLOWED_PROCS).any
      (fun a => lowerStr a == lowerStr r) = true)
    (hmem : allowedRef r = false) :
    (∃ o, o ∈ objRefs (pyStrip q) ∧ allowedRef o = false ∧
       validate_query q = some (VErr.objectNotAllowed o)) ∧
    validate_query (chars "select * from dbo.AppMeta") = none ∧
    validate_query (chars "select * from dbo.appmeta")
      = some (VErr.objectNotAllowed (chars "dbo.appmeta")) ∧
    validate_query (chars "select * from dbo.APPMETA")
      = some (VErr.objectNotAllowed (chars "dbo.APPMETA")) ∧
    validate_query (chars "EXEC DBO.sp_ItemaOtomatikAyar")
      = some (VErr.procNotAllowed (chars "DBO.sp_ItemaOtomatikAyar")) ∧
    validate_query (chars "EXEC dbo.sp_ItemaOtomatikAyar") = none := by
  have hne' := isEmpty_false_of_ne_nil hne
  have hforb' : containsForbidden (pyStrip q) = false := by
    rw [containsForbidden_strip]; exact hforb
  refine ⟨exists_object_reject q hne' hforb' hverb r hr hmem, ?_, ?_, ?_, ?_, ?_⟩
  · decide
  · decide
  · decide
  · decide
  · decide

theorem c10_case_sensitive_allowlist_witness :
    (∃ o, o ∈ objRefs (pyStrip (chars "select * from dbo.appmeta")) ∧
       allowedRef o = false ∧
       validate_query (chars "select * from dbo.appmeta")
         = some (VErr.objectNotAllowed o)) ∧
    validate_query (chars "select * from dbo.AppMeta") = none ∧
    validate_query (chars "select * from dbo.appmeta")
      = some (VErr.objectNotAllowed (chars "dbo.appmeta")) ∧
    validate_query (chars "select * from dbo.APPMETA")
      = some (VErr.objectNotAllowed (chars "dbo.APPMETA")) ∧
    validate_query (chars "EXEC DBO.sp_ItemaOtomatikAyar")
      = some (VErr.procNotAllowed (chars "DBO.sp_ItemaOtomatikAyar")) ∧
    validate_query (chars "EXEC dbo.sp_ItemaOtomatikAyar") = none :=
  c10_case_sensitive_allowlist (chars "select * from dbo.appmeta") (chars "dbo.appmeta")
    (by decide) (by decide) (by decide) (by decide) (by decide) (by decide)

/-! Lemmas: the indexed adapt_params loop acts as a pointwise map. -/

lemma set_getElem?_self {α : Type} (l : List α) (i : Nat) (v : α)
    (h : l[i]? = some v) : l.set i v = l := by
  induction l generalizing i with
  | nil => simp at h
  | cons a t ih =>
    cases i with
    | zero =>
      simp at h
      simp [List.set, h]
    | succ j =>
      simp at h
      simp [List.set, ih j h]

lemma adaptStep_eq_set (out : List Value) (i : Nat) (v : Value)
    (h : out[i]? = some v) :
    adaptStep out i = out.set i (specAdaptParam v) := by
  cases v with
  | str s =>
    cases hd : b64decodePy s with
    | some bs => simp [adaptStep, specAdaptParam, h, hd]
    | none => simp [adaptStep, specAdaptParam, h, hd, set_getElem?_self out i _ h]
  | int n => simp [adaptStep, specAdaptParam, h, set_getElem?_self out i _ h]
  | boolV b => simp [adaptStep, specAdaptParam, h, set_getElem?_self out i _ h]
  | null => simp [adaptStep, specAdaptParam, h, set_getElem?_self out i _ h]
  | bytes bs => simp [adaptStep, specAdaptParam, h, set_getElem?_self out i _ h]

lemma set_append_mid {α : Type} (pre : List α) (v w : α) (post : List α) :
    (pre ++ v :: post).set pre.length w = pre ++ w :: post := by
  induction pre with
  | nil => rfl
  | cons a t ih => simp [List.set, ih]

lemma foldl_adaptStep (post pre : List Value) :
    (List.range' pre.length post.length).foldl adaptStep (pre ++ post)
      = pre ++ post.map specAdaptParam := by
  induction post generalizing pre with
  | nil => simp
  | cons v post' ih =>
    simp only [List.length_cons]
    rw [List.range'_succ, List.foldl_cons]
    have hget : (pre ++ v :: post')[pre.length]? = some v := by
      rw [List.getElem?_append_right (Nat.le_refl _)]
      simp
    rw [adaptStep_eq_set _ _ _ hget, set_append_mid]
    have hassoc : pre ++ specAdaptParam v :: post'
        = (pre ++ [specAdaptParam v]) ++ post' := by simp
    have hlen : pre.length + 1 = (pre ++ [specAdaptParam v]).length := by simp
    rw [hassoc, hlen, ih (pre ++ [specAdaptParam v])]
    simp

lemma adapt_loop_eq_map (ps : List Value) :
    (List.range ps.length).foldl adaptStep ps = ps.map specAdaptParam := by
  have h := foldl_adaptStep ps []
  simpa [List.range_eq_range'] using h

/-- C6: the parameter adapter transforms only on the one recognized
binary-bearing insert with a non-empty parameter list, acting there as a
pointwise map that base64-decodes each str parameter, keeps a str whose
decoding raises unchanged, and keeps non-str parameters unchanged; every
other query passes its parameters through unmodified. -/
theorem c6_adapter_scope (q : List Nat) (ps : List Value) :
    (containsSub (chars "insert into dbo.noterules") (lowerStr q) = false →
       adapt_params q ps = ps) ∧
    (ps = [] → adapt_params q ps = ps) ∧
    (containsSub (chars "insert into dbo.noterules") (lowerStr q) = true → ps ≠ [] →
       adapt_params q ps = ps.map specAdaptParam ∧
       (∀ s bs, b64decodePy s = some bs →
          specAdaptParam (Value.str s) = Value.bytes bs) ∧
       (∀ s, b64decodePy s = none → specAdaptParam (Value.str s) = Value.str s) ∧
       (∀ v, (∀ s, v ≠ Value.str s) → specAdaptParam v = v)) := by
  refine ⟨?_, ?_, ?_⟩
  · intro hsub
    unfold adapt_params
    simp [hsub]
  · intro hps
    unfold adapt_params
    simp [hps]
  · intro hsub hps
    have hem : ps.isEmpty = false := isEmpty_false_of_ne_nil hps
    refine ⟨?_, ?_, ?_, ?_⟩
    · unfold adapt_params
      simp only [hsub, hem, Bool.not_false, Bool.and_self, if_true]
      exact adapt_loop_eq_map ps
    · intro s bs hd
      simp [specAdaptParam, hd]
    · intro s hd
      simp [specAdaptParam, hd]
    · intro v hv
      cases v with
      | str s => exact absurd rfl (hv s)
      | int n => rfl
      | boolV b => rfl
      | null => rfl
      | bytes bs => rfl

theorem c6_adapter_scope_witness :
    adapt_params (chars "INSERT INTO dbo.NoteRules (TypeCode, RuleBlob) VALUES (?, ?, ?)")
        [Value.str (chars "aGk="), Value.int 7, Value.str (chars "QQ")]
      = [Value.bytes [104, 105], Value.int 7, Value.str (chars "QQ")] ∧
    adapt_params (chars "select * from dbo.NoteRules") [Value.str (chars "aGk=")]
      = [Value.str (chars "aGk=")] := by
  constructor
  · have h := (c6_adapter_scope
      (chars "INSERT INTO dbo.NoteRules (TypeCode, RuleBlob) VALUES (?, ?, ?)")
      [Value.str (chars "aGk="), Value.int 7, Value.str (chars "QQ")]).2.2
      (by decide) (by decide)
    rw [h.1]
    decide
  · exact (c6_adapter_scope (chars "select * from dbo.NoteRules")
      [Value.str (chars "aGk=")]).1 (by decide)

/-! Lemmas: the non-strict decoder inverts the encoder on canonical
base64 texts. -/

lemma b64val_b64char (v : Nat) (hv : v < 64) : b64val (b64char v) = some v := by
  unfold b64char b64val
  split_ifs <;> simp_all <;> omega

lemma b64val_61 : b64val 61 = none := by decide

lemma b64loop_data0 (p : Nat) (v : Nat) (hv : v < 64) (rest : List Nat) :
    b64loop [] p (b64char v :: rest) = b64loop [v] 0 rest := by
  simp [b64loop, b64val_b64char v hv]

lemma b64loop_data1 (p v0 v : Nat) (hv : v < 64) (rest : List Nat) :
    b64loop [v0] p (b64char v :: rest) = b64loop [v0, v] 0 rest := by
  simp [b64loop, b64val_b64char v hv]

lemma b64loop_data2 (p v0 v1 v : Nat) (hv : v < 64) (rest : List Nat) :
    b64loop [v0, v1] p (b64char v :: rest) = b64loop [v0, v1, v] 0 rest := by
  simp [b64loop, b64val_b64char v hv]

lemma b64loop_data3 (p v0 v1 v2 v : Nat) (hv : v < 64) (rest : List Nat) :
    b64loop [v0, v1, v2] p (b64char v :: rest)
      = (b64loop [] 0 rest).map
          (fun tl => (v0 * 4 + v1 / 16) :: (v1 % 16 * 16 + v2 / 4) :: (v2 % 4 * 64 + v) :: tl) := by
  simp [b64loop, b64val_b64char v hv]

lemma b64loop_pad2_first (v0 v1 : Nat) (rest : List Nat) :
    b64loop [v0, v1] 0 (61 :: rest) = b64loop [v0, v1] 1 rest := by
  simp [b64loop, b64val_61]

lemma b64loop_pad2_second (v0 v1 : Nat) (rest : List Nat) :
    b64loop [v0, v1] 1 (61 :: rest) = some [v0 * 4 + v1 / 16] := by
  simp [b64loop, b64val_61]

lemma b64loop_pad3 (p v0 v1 v2 : Nat) (rest : List Nat) :
    b64loop [v0, v1, v2] p (61 :: rest)
      = some [v0 * 4 + v1 / 16, v1 % 16 * 16 + v2 / 4] := by
  simp [b64loop, b64val_61]

lemma b64char_lt128 (v : Nat) : b64char v < 128 := by
  unfold b64char
  split_ifs <;> omega

lemma b64encode_lt128 : ∀ b : List Nat, (b64encode b).all (fun c => c < 128) = true
  | [] => rfl
  | [b0] => by simp [b64encode, b64char_lt128]
  | [b0, b1] => by simp [b64encode, b64char_lt128]
  | b0 :: b1 :: b2 :: rest => by
    have ih := b64encode_lt128 rest
    simp only [b64encode, List.all_cons, ih, Bool.and_true]
    simp [b64char_lt128]

lemma b64_roundtrip : ∀ b : List Nat, b.all (fun x => x < 256) = true →
    b64loop [] 0 (b64encode b) = some b
  | [], _ => rfl
  | [b0], h => by
    simp only [List.all_cons, List.all_nil, Bool.and_true, decide_eq_true_eq] at h
    rw [b64encode, b64loop_data0 0 _ (by omega), b64loop_data1 0 _ _ (by omega),
      b64loop_pad2_first, b64loop_pad2_second]
    simp
    omega
  | [b0, b1], h => by
    simp only [List.all_cons, List.all_nil, Bool.and_true, Bool.and_eq_true,
      decide_eq_true_eq] at h
    rw [b64encode, b64loop_data0 0 _ (by omega), b64loop_data1 0 _ _ (by omega),
      b64loop_data2 0 _ _ _ (by omega), b64loop_pad3]
    simp
    constructor <;> omega
  | b0 :: b1 :: b2 :: r0 :: rest, h => by
    simp only [List.all_cons, Bool.and_eq_true, decide_eq_true_eq] at h
    obtain ⟨h0, h1, h2, hrest⟩ := h
    have ih := b64_roundtrip (r0 :: rest) (by
      simp only [List.all_cons, Bool.and_eq_true, decide_eq_true_eq]
      exact hrest)
    rw [show b64encode (b0 :: b1 :: b2 :: r0 :: rest)
        = b64char (b0 / 4) :: b64char (b0 % 4 * 16 + b1 / 16) ::
            b64char (b1 % 16 * 4 + b2 / 64) :: b64char (b2 % 64) ::
              b64encode (r0 :: rest) from rfl,
      b64loop_data0 0 _ (by omega), b64loop_data1 0 _ _ (by omega),
      b64loop_data2 0 _ _ _ (by omega), b64loop_data3 0 _ _ _ _ (by omega), ih]
    simp
    refine ⟨by omega, by omega, by omega⟩
  | [b0, b1, b2], h => by
    simp only [List.all_cons, List.all_nil, Bool.and_true, Bool.and_eq_true,
      decide_eq_true_eq] at h
    obtain ⟨h0, h1, h2⟩ := h
    rw [show b64encode [b0, b1, b2]
        = b64char (b0 / 4) :: b64char (b0 % 4 * 16 + b1 / 16) ::
            b64char (b1 % 16 * 4 + b2 / 64) :: b64char (b2 % 64) :: b64encode [] from rfl,
      b64loop_data0 0 _ (by omega), b64loop_data1 0 _ _ (by omega),
      b64loop_data2 0 _ _ _ (by omega), b64loop_data3 0 _ _ _ _ (by omega)]
    rw [show b64loop [] 0 (b64encode []) = some [] from rfl]
    simp
    refine ⟨by omega, by omega, by omega⟩

lemma b64decodePy_encode (b : List Nat) (hb : b.all (fun x => x < 256) = true) :
    b64decodePy (b64encode b) = some b := by
  unfold b64decodePy
  rw [b64encode_lt128 b, if_pos rfl]
  exact b64_roundtrip b hb

/-- C7 counterexample: the base64 text aGk= followed by a newline decodes
(the decoder discards the non-alphabet character), the adapter therefore
turns it into the bytes of hi, but re-encoding yields the four-character
text aGk=, not the submitted five-character text, so encode after decode
is not the identity on all decodable submitted texts. -/
theorem c7_roundtrip_counterexample :
    b64decodePy (chars "aGk=\n") = some [104, 105] ∧
    adapt_params (chars "insert into dbo.noterules values (?)")
        [Value.str (chars "aGk=\n")] = [Value.bytes [104, 105]] ∧
    encode_value (Value.bytes [104, 105]) = Value.str (chars "aGk=") ∧
    chars "aGk=" ≠ chars "aGk=\n" := by decide

/-- C7 amended: on canonical base64 texts, those produced by the encoder
from a byte payload, the round trip does hold: the adapter decodes the
submitted text back to the payload and the result encoder re-encodes the
payload to exactly the submitted text. -/
theorem c7_roundtrip_canonical (b : List Nat)
    (hb : b.all (fun x => x < 256) = true) :
    b64decodePy (b64encode b) = some b ∧
    encode_value (Value.bytes b) = Value.str (b64encode b) ∧
    adapt_params (chars "insert into dbo.noterules values (?)")
        [Value.str (b64encode b)] = [Value.bytes b] := by
  have hdec := b64decodePy_encode b hb
  refine ⟨hdec, rfl, ?_⟩
  have htrig : containsSub (chars "insert into dbo.noterules")
      (lowerStr (chars "insert into dbo.noterules values (?)")) = true := by decide
  have hrange : List.range [Value.str (b64encode b)].length = [0] := rfl
  simp only [adapt_params, htrig, List.isEmpty_cons, Bool.not_false, Bool.and_self,
    if_true, hrange, List.foldl_cons, List.foldl_nil]
  simp [adaptStep, hdec]

theorem c7_roundtrip_canonical_witness :
    b64decodePy (b64encode [104, 105]) = some [104, 105] ∧
    encode_value (Value.bytes [104, 105]) = Value.str (b64encode [104, 105]) ∧
    adapt_params (chars "insert into dbo.noterules values (?)")
        [Value.str (b64encode [104, 105])] = [Value.bytes [104, 105]] :=
  c7_roundtrip_canonical [104, 105] (by decide)

/-! Theorems about the sql handler pipeline. -/

/-- C5 counterexample: a whitespace-only query submitted with a wrong
token yields the 401 authentication failure, not the 400 Empty query
response, because the token guard runs before the emptiness check. -/
theorem c5_auth_before_empty_counterexample :
    pyStrip (chars " ") = [] ∧
    (sql (chars "secret") none (chars " ") [] trivialDriver).result
      = Except.error (401, chars "Unauthorized") :=
  ⟨rfl, rfl⟩

/-- C5 amended: once the token guard has passed, an empty or
whitespace-only query text is answered with 400 and detail Empty query
before any other validation check and before any driver interaction: the
outcome is the same for every driver, no connection is acquired and no
commit is attempted. -/
theorem c5_empty_query_rejected (expected : List Nat) (xToken : Option (List Nat))
    (q : List Nat) (params : List Value) (d : Driver)
    (hauth : require_token expected xToken = true)
    (hq : pyStrip q = []) :
    sql expected xToken q params d
      = ⟨Except.error (400, chars "Empty query"), false, false, false⟩ := by
  have hval : validate_query q = some VErr.emptyQuery := by
    unfold validate_query
    simp [hq]
  unfold sql
  rw [hauth]
  simp [hval, errStatus, errDetail]

theorem c5_empty_query_rejected_witness :
    sql (chars "") none (chars " \t ") [] trivialDriver
      = ⟨Except.error (400, chars "Empty query"), false, false, false⟩ :=
  c5_empty_query_rejected (chars "") none (chars " \t ") [] trivialDriver rfl (by decide)

/-- C8: for an authorized, validated request whose driver connects and
executes, a non-empty cursor description produces the row-returning form
with the encoded rows and rowcount equal to the number of fetched rows,
with no commit; an empty description with a successful commit produces
the mutation form with empty columns and rows and affected_rows from the
driver count, or the sentinel -1 when the count is missing. The two
forms are distinct constructors, so a response is never both. -/
theorem c8_result_forms (expected : List Nat) (xToken : Option (List Nat))
    (q : List Nat) (params : List Value) (d : Driver) (cur : Cursor)
    (hauth : require_token expected xToken = true)
    (hval : validate_query q = none)
    (hconn : d.connect = Except.ok ())
    (hexec : d.execute q (adapt_params q params) = Except.ok cur) :
    (cur.description ≠ [] →
       (sql expected xToken q params d).result
         = Except.ok (HResp.rowsResult cur.description
             (cur.rows.map (fun row => row.map encode_value)) cur.rows.length) ∧
       (sql expected xToken q params d).commitAttempted = false) ∧
    (cur.description = [] → d.commit = Except.ok () →
       (sql expected xToken q params d).result
         = Except.ok (HResp.mutationResult [] []
             (match cur.rowcount with | some n => n | none => -1)) ∧
       (sql expected xToken q params d).commitAttempted = true) := by
  constructor
  · intro hdesc
    have hde := isEmpty_false_of_ne_nil hdesc
    unfold sql sqlTryBody
    rw [hauth]
    simp [hval, hconn, hexec, hde]
  · intro hdesc hcommit
    unfold sql sqlTryBody
    rw [hauth]
    simp [hval, hconn, hexec, hdesc, hcommit]

theorem c8_result_forms_witness :
    ((sql (chars "") none (chars "select * from dbo.AppMeta") [] rowsDriver).result
       = Except.ok (HResp.rowsResult [chars "TypeCode"]
           [[Value.int 3], [Value.str (chars "aGk=")]] 2) ∧
     (sql (chars "") none (chars "select * from dbo.AppMeta") [] rowsDriver).commitAttempted
       = false) ∧
    ((sql (chars "") none (chars "delete from dbo.AppMeta") [] trivialDriver).result
       = Except.ok (HResp.mutationResult [] [] (-1)) ∧
     (sql (chars "") none (chars "delete from dbo.AppMeta") [] trivialDriver).commitAttempted
       = true) :=
  ⟨(c8_result_forms (chars "") none (chars "select * from dbo.AppMeta") [] rowsDriver
      ⟨[chars "TypeCode"], [[Value.int 3], [Value.bytes [104, 105]]], none⟩
      rfl (by decide) rfl rfl).1 (by decide),
   (c8_result_forms (chars "") none (chars "delete from dbo.AppMeta") [] trivialDriver
      ⟨[], [], none⟩ rfl (by decide) rfl rfl).2 rfl rfl⟩

lemma sql_closed_eq_acquired (expected : List Nat) (xToken : Option (List Nat))
    (q : List Nat) (params : List Value) (d : Driver) :
    (sql expected xToken q params d).closed = (sql expected xToken q params d).acquired := by
  unfold sql
  by_cases hauth : require_token expected xToken = true
  · rw [hauth]
    cases hval : validate_query q with
    | some e => simp [hval]
    | none =>
      rcases hbody : sqlTryBody d q (adapt_params q params) with ⟨res, acq, cmt⟩
      simp [hval, hbody]
  · have : require_token expected xToken = false := by
      cases h : require_token expected xToken with
      | true => exact absurd h hauth
      | false => rfl
    rw [this]
    rfl

/-- C9: the scoped-release discipline of the handler: on every outcome,
whenever a connection was acquired it is also closed before the response
or error is produced; a failed connect acquires nothing, and execute or
commit failures still close the connection. -/
theorem c9_connection_released (expected : List Nat) (xToken : Option (List Nat))
    (q : List Nat) (params : List Value) (d : Driver)
    (hacq : (sql expected xToken q params d).acquired = true) :
    (sql expected xToken q params d).closed = true := by
  rw [sql_closed_eq_acquired]
  exact hacq

theorem c9_connection_released_witness :
    (sql (chars "") none (chars "select 1") [] rowsDriver).closed = true :=
  c9_connection_released (chars "") none (chars "select 1") [] rowsDriver rfl

end Uzman
